import Mathlib

/-!
Verification development for the Book8 voice gateway server.

The definitions below are a shallow embedding of the final server iteration
in `src/index.js` (session store, business resolver, phone-sentence cleaner,
the three Twilio webhook handlers, the status callback, and the
`/debug/agent-chat` orchestration endpoint), plus the earlier iteration's
`getCallSession` (src/index.js lines 31-48).  JavaScript strings are modelled
as Lean `String` (or `List Char` where character-level processing matters);
nullable / possibly-undefined strings as `Option String`, with `none` and
`some ""` both "falsy"; the global `sessions` Map as an association list
threaded explicitly; `Date.now()` as an explicit `Nat` argument; and every
external effect (fetch to the resolver, core API, voice agent, model
completions) as an explicitly supplied outcome so that all code paths,
including thrown exceptions, are covered.  Thrown exceptions are modelled
with `Except String`; each Express handler body is a function returning
`Except String Response × Store` (the store component records the mutations
performed before a throw, matching in-place Map mutation), and the deployed
handler wraps the body in the source's top-level try/catch.
-/

namespace VoiceGateway

/-- Truthiness of a nullable JS string: `undefined`/`null`/`""` are falsy. -/
def truthyS : Option String → Bool
  | some s => s ≠ ""
  | none => false

/-- JS `a || b` on nullable strings. -/
def orFalsy (a b : Option String) : Option String :=
  if truthyS a then a else b

/-- Normalize a nullable JS string so that a falsy value becomes `none`. -/
def asTruthy (a : Option String) : Option String :=
  if truthyS a then a else none

/-- One entry of a session's `messages` array (role + content). -/
structure SessMsg where
  role : String
  content : String
deriving DecidableEq, Repr

/-- A call session of the final server iteration:
`{ messages: [], lastActive: Date.now(), businessId: null }`. -/
structure Session where
  messages : List SessMsg
  lastActive : Nat
  businessId : Option String
deriving DecidableEq, Repr

/-- The global `sessions` Map, keyed by CallSid, in insertion order. -/
abbrev Store := List (String × Session)

/-- Map lookup, i.e. `sessions.get(k)` / `sessions.has(k)`. -/
def storeFind : Store → String → Option Session
  | [], _ => none
  | (k', v) :: t, k => if k' = k then some v else storeFind t k

/-- Map update `sessions.set(k, v)`: replaces in place, or appends in insertion order. -/
def storeSet : Store → String → Session → Store
  | [], k, v => [(k, v)]
  | (k', v') :: t, k, v =>
    if k' = k then (k, v) :: t else (k', v') :: storeSet t k v

/-- Map deletion `sessions.delete(k)`. -/
def storeErase (st : Store) (k : String) : Store :=
  st.filter (fun p => p.1 != k)

/-- Function `getSession(callSid)` from the final iteration (src/index.js 2275-2287):
returns `null` for a falsy CallSid; otherwise lazily creates
`{ messages: [], lastActive: now, businessId: null }`, refreshes
`lastActive` and returns the stored session.  The current time is an
explicit argument. -/
def getSession (callSid : String) (now : Nat) (st : Store) :
    Option Session × Store :=
  if callSid = "" then (none, st)
  else
    match storeFind st callSid with
    | some s =>
      let s' := { s with lastActive := now }
      (some s', storeSet st callSid s')
    | none =>
      let s : Session := ⟨[], now, none⟩
      (some s, storeSet st callSid s)

/-- A call session of the first server iteration (`calls` Map): only a
`messages` array, seeded with the system prompt at creation. -/
structure CallSession where
  messages : List SessMsg
deriving DecidableEq, Repr

abbrev CallsStore := List (String × CallSession)

def callsFind : CallsStore → String → Option CallSession
  | [], _ => none
  | (k', v) :: t, k => if k' = k then some v else callsFind t k

def callsSet : CallsStore → String → CallSession → CallsStore
  | [], k, v => [(k, v)]
  | (k', v') :: t, k, v =>
    if k' = k then (k, v) :: t else (k', v') :: callsSet t k v

/-- The system prompt seeded by `getCallSession` (src/index.js 33-39). -/
def callSystemPrompt : String :=
  "You are Book8 AI, a friendly phone assistant that books meetings " ++
  "for small businesses using the Book8 scheduling app. " ++
  "You can check availability and create bookings via tools the server provides. " ++
  "Ask natural questions, confirm details (name, email, phone, preferred time), " ++
  "and then use the tools to check availability and book. " ++
  "Always explain clearly what you did for the caller."

/-- Function `getCallSession(callSid)` from the first iteration
(src/index.js 31-48): lazily creates a session whose `messages` array is
seeded with exactly one system entry, and returns the stored session. -/
def getCallSession (callSid : String) (st : CallsStore) :
    CallSession × CallsStore :=
  match callsFind st callSid with
  | some s => (s, st)
  | none =>
    let s : CallSession := ⟨[⟨"system", callSystemPrompt⟩]⟩
    (s, callsSet st callSid s)

/-! ## Business resolver (src/index.js 2124-2144) -/

/-- Outcome of the single `fetch` performed by `resolveBusinessByTo`:
the fetch may throw, return a non-OK status, fail to parse as JSON, or
return a JSON object whose `businessId` field is absent/null/a string. -/
inductive ResolveOutcome
  | netError                       -- fetch threw
  | httpError                      -- !r.ok
  | badJson                        -- r.json() threw
  | ok (businessId : Option String)  -- parsed `json?.businessId`
deriving DecidableEq, Repr

/-- Function `resolveBusinessByTo(toPhone)`: returns `null` for a falsy input and for
every failure outcome; on success returns `json?.businessId || null`.
All failures are caught inside the function (it never throws outward). -/
def resolveBusinessByTo (toPhone : Option String) (out : ResolveOutcome) :
    Option String :=
  if ¬ truthyS toPhone then none
  else
    match out with
    | .ok b => asTruthy b         -- `json?.businessId || null`
    | _ => none                   -- !r.ok, JSON error, or thrown fetch

/-! ## Phone-sentence cleaner (src/index.js 2151-2171)

`toPhoneSentence` is character-level string processing, so it is embedded
over `List Char`.  The regex `\s` class is modelled on its ASCII part and
`[.!?]` literally; `encodeURIComponent`-style escaping elsewhere is not
modelled (URLs are plain concatenations). -/

/-- The backtick character (stripped by `replace(/[_`]/g, "")`). -/
def backtickChar : Char := Char.ofNat 96

/-- ASCII part of the JS `\s` character class. -/
def isWsC (c : Char) : Bool :=
  c == ' ' || c == '\t' || c == '\n' || c == '\r' || c == '\x0b' || c == '\x0c'

/-- Sentence-terminating characters `[.!?]`. -/
def isTermC (c : Char) : Bool :=
  c == '.' || c == '!' || c == '?'

/-- Step `replace(/\*\*/g, "")`: drop non-overlapping `**` pairs left to right. -/
def removeDoubleStar : List Char → List Char
  | '*' :: '*' :: rest => removeDoubleStar rest
  | c :: rest => c :: removeDoubleStar rest
  | [] => []

/-- Step removing every underscore and backtick, the `[_` + backtick + `]` class. -/
def removeMarkupChars (l : List Char) : List Char :=
  l.filter (fun c => !(c == '_' || c == backtickChar))

/-- Step `replace(/\n\n/g, ". ")`, non-overlapping, left to right. -/
def replaceDoubleNl : List Char → List Char
  | '\n' :: '\n' :: rest => '.' :: ' ' :: replaceDoubleNl rest
  | c :: rest => c :: replaceDoubleNl rest
  | [] => []

/-- Step `replace(/\n/g, " ")`. -/
def replaceNl (l : List Char) : List Char :=
  l.map (fun c => if c == '\n' then ' ' else c)

/-- State machine for `split(/(?<=[.!?])\s+/)`: a split point is a maximal
whitespace run immediately preceded by a terminator; the whitespace run is
consumed (`skipping` state), the terminator stays with the left part.
`acc` holds the current part reversed. -/
def splitSentAux : List Char → List Char → Bool → List (List Char)
  | [], acc, _ => [acc.reverse]
  | c :: rest, acc, skipping =>
    if skipping then
      if isWsC c then splitSentAux rest acc true
      else splitSentAux rest [c] false
    else
      match acc with
      | a :: _ =>
        if isWsC c && isTermC a then
          acc.reverse :: splitSentAux rest [] true
        else
          splitSentAux rest (c :: acc) false
      | [] => splitSentAux rest (c :: acc) false

/-- The split `clean.split(/(?<=[.!?])\s+/)`. -/
def splitSentences (l : List Char) : List (List Char) :=
  splitSentAux l [] false

/-- The join `parts.join(" ")`. -/
def joinSp : List (List Char) → List Char
  | [] => []
  | [p] => p
  | p :: q :: ps => p ++ ' ' :: joinSp (q :: ps)

/-- JS `String.prototype.trim()` (whitespace from both ends). -/
def trimChars (l : List Char) : List Char :=
  ((l.dropWhile isWsC).reverse.dropWhile isWsC).reverse

/-- Fallback of `toPhoneSentence` for falsy input. -/
def didNotCatchMsg : String :=
  "Sorry, I didn\x27t catch that. Could you say that again?"

/-- Function `toPhoneSentence(text)` (src/index.js 2151-2171): canned fallback for
falsy input; otherwise strip `**`, `_`, backticks, rewrite newlines, keep
the first two sentences, hard-cap at 220 characters and trim. -/
def toPhoneSentence (text : List Char) : List Char :=
  if text = [] then didNotCatchMsg.toList
  else
    let clean := replaceNl (replaceDoubleNl (removeMarkupChars (removeDoubleStar text)))
    let parts := splitSentences clean
    let clean2 := joinSp (parts.take 2)
    let clean3 := if clean2.length > 220 then clean2.take 220 else clean2
    trimChars clean3

/-- A `String`-typed wrapper of `toPhoneSentence` used by the handlers. -/
def toPhoneSentenceStr (s : String) : String :=
  (toPhoneSentence s.toList).asString

/-- Number of internal sentence boundaries (a terminator immediately
followed by whitespace); a text with at most two sentences has at most one. -/
def boundaries : List Char → Nat
  | a :: b :: rest => (if isTermC a && isWsC b then 1 else 0) + boundaries (b :: rest)
  | _ => 0

/-! ## TwiML responses

A handler's reply to Twilio is a sequence of TwiML verbs.  The empty list
is the bare acknowledgment `<Response></Response>`. -/

inductive Verb
  | say (text : String)
  | gatherSay (action : String) (text : String)   -- <Gather action=..><Say>..</Say></Gather>
  | redirect (url : String)
  | hangup
deriving DecidableEq, Repr

abbrev Response := List Verb

/-- Generic apology of every handler's top-level catch block. -/
def techIssueMsg : String :=
  "I\x27m sorry, I\x27m experiencing a technical issue. Please try calling again in a moment."

/-- Response of the top-level catch: apology then hangup. -/
def apologyTerminate : Response := [.say techIssueMsg, .hangup]

/-- Graceful failure when no business can be resolved on `/twilio/voice`. -/
def notConfiguredMsg : String :=
  "This number is not yet configured for a business. Goodbye."

/-- Graceful failure when no business is available in the gather/agent handlers. -/
def noBusinessMsg : String :=
  "I\x27m sorry, I\x27m having trouble identifying your business. Please try calling again."

def greetMsg : String := "Hi, thanks for calling. How can I help you today?"

def thinkingMsg : String := "Sure — one second."

/-! ## Safe agent call helper (src/index.js 2175-2269) -/

/-- Outcome of the voice-agent fetch inside `callAgentSafely`.  Every branch
of the source helper is covered: HTTP error, unparsable JSON body, abort
timeout, any other thrown error, or a parsed JSON body carrying an optional
`reply` field (the source reads `agentJson.reply` the same way whether or not
`agentJson.ok` is set). -/
inductive AgentOutcome
  | httpError
  | parseError
  | timeout
  | fatal
  | ok (reply : Option String)
deriving DecidableEq, Repr

/-- Helper `callAgentSafely`: never throws; returns `(success, reply)` with a
branch-specific fallback reply on failure, and on success the agent's reply
or a canned acknowledgment when the reply is falsy. -/
def callAgentSafely (out : AgentOutcome) : Bool × String :=
  match out with
  | .httpError =>
    (false, "I\x27m having trouble accessing the scheduling system right now. Please try again a bit later.")
  | .parseError =>
    (false, "I\x27m having trouble processing the response. Please try again.")
  | .timeout =>
    (false, "I\x27m taking a bit longer than usual. Please hold on, or try again in a moment.")
  | .fatal =>
    (false, "I\x27m having trouble connecting right now. Please try calling again in a moment.")
  | .ok r =>
    match asTruthy r with
    | some s => (true, s)
    | none => (true, "Thanks. How else can I help you today?")

/-! ## Twilio webhook handlers (final iteration)

Each handler body returns `Except String Response × Store`: the `Except`
carries a thrown JS exception, the `Store` the session-map state at the
point of return or throw.  `env.inject` injects an arbitrary internal
exception (the spec's "internal exception at any point"); the JS
`TypeError` from dereferencing the `null` session returned by `getSession`
for a falsy CallSid is modelled explicitly.  The core-API lifecycle
notifications (`/internal/calls/start`, `/internal/calls/end`) are wrapped
in their own try/catch in the source and never influence control flow or
session state, so only their failure flag appears in the environment. -/

structure VoiceEnv where
  now : Nat
  resolve : ResolveOutcome
  callsStartFails : Bool      -- caught inside the handler, logged only
  inject : Bool               -- an unexpected internal exception
deriving DecidableEq, Repr

structure VoiceReq where
  toNumber : Option String       -- req.body.To
  fromNumber : Option String     -- req.body.From
  callSid : String               -- req.body.CallSid ("" models falsy/absent)
  queryBusinessId : Option String  -- req.query.businessId
deriving DecidableEq, Repr

/-- Body of `POST /twilio/voice` (src/index.js 2321-2446). -/
def twilioVoiceBody (req : VoiceReq) (env : VoiceEnv) (st : Store) :
    Except String Response × Store :=
  let (osession, st1) := getSession req.callSid env.now st
  match osession with
  | none => (.error "TypeError: cannot read businessId of null", st1)
  | some session =>
    if env.inject then (.error "injected internal error", st1)
    else
      -- let businessId = req.query.businessId || session.businessId
      let bid0 := orFalsy req.queryBusinessId session.businessId
      -- if (!businessId) businessId = await resolveBusinessByTo(to)
      let bid1 := if truthyS bid0 then bid0
                  else resolveBusinessByTo req.toNumber env.resolve
      match asTruthy bid1 with
      | none =>
        -- if (!businessId): say not-configured, hang up
        (.ok [.say notConfiguredMsg, .hangup], st1)
      | some b =>
        -- session.businessId = businessId, stored back;
        -- /internal/calls/start attempted when !req.query.businessId && callSid,
        -- wrapped in try/catch: no effect on response or session state.
        (.ok [.gatherSay ("/twilio/handle-gather?businessId=" ++ b) greetMsg,
              .redirect ("/twilio/voice?businessId=" ++ b)],
          storeSet st1 req.callSid { session with businessId := some b })

/-- Handler `POST /twilio/voice` with its top-level try/catch. -/
def twilioVoice (req : VoiceReq) (env : VoiceEnv) (st : Store) :
    Response × Store :=
  match twilioVoiceBody req env st with
  | (.ok r, st') => (r, st')
  | (.error _, st') => (apologyTerminate, st')

structure GatherEnv where
  now : Nat
  resolve : ResolveOutcome
  inject : Bool
deriving DecidableEq, Repr

structure GatherReq where
  speechResult : Option String       -- req.body.SpeechResult
  transcriptionText : Option String  -- req.body.TranscriptionText
  bodyText : Option String           -- req.body.Body
  fromNumber : Option String
  toNumber : Option String
  callSid : String
  queryBusinessId : Option String
deriving DecidableEq, Repr

/-- Redirect target used when the gather carried no speech: back to the
voice entry point, with the businessId query parameter when truthy. -/
def gatherRedirectUrl (bid : Option String) : String :=
  match asTruthy bid with
  | some b => "/twilio/voice?businessId=" ++ b
  | none => "/twilio/voice"

/-- Query string assembled for the `/twilio/process-agent` redirect
(plain concatenation; URL escaping is not modelled). -/
def processAgentParams (speech fromN toN b cid : String) : String :=
  "speech=" ++ speech ++ "&from=" ++ fromN ++ "&to=" ++ toN
    ++ "&businessId=" ++ b ++ "&callSid=" ++ cid

/-- Body of `POST /twilio/handle-gather` (src/index.js 2471-2553). -/
def twilioHandleGatherBody (req : GatherReq) (env : GatherEnv) (st : Store) :
    Except String Response × Store :=
  -- const speech = SpeechResult || TranscriptionText || Body || ""
  let speech := (orFalsy (orFalsy req.speechResult req.transcriptionText)
                  req.bodyText).getD ""
  let (osession, st1) := getSession req.callSid env.now st
  match osession with
  | none =>
    -- session is null (falsy CallSid): the source throws only at an actual
    -- dereference — reading `session.businessId` in the first resolution
    -- condition when the query parameter is falsy (src/index.js 2488), or
    -- assigning `session.businessId` after the speech checks (2528); with a
    -- truthy query parameter and blank speech nothing dereferences the null
    -- session and a plain redirect is answered (2504-2510).
    if ¬ truthyS req.queryBusinessId then
      (.error "TypeError: cannot read businessId of null", st1)
    else if trimChars speech.toList = [] then
      (.ok [.redirect (gatherRedirectUrl req.queryBusinessId)], st1)
    else
      (.error "TypeError: cannot set businessId of null", st1)
  | some session =>
    if env.inject then (.error "injected internal error", st1)
    else
      -- let businessId = req.query.businessId; re-use session's, else re-resolve
      match (if ¬ truthyS req.queryBusinessId ∧ truthyS session.businessId then
               (session.businessId, session, st1)
             else if ¬ truthyS req.queryBusinessId ∧ truthyS req.toNumber then
               (resolveBusinessByTo req.toNumber env.resolve,
                { session with businessId := resolveBusinessByTo req.toNumber env.resolve },
                storeSet st1 req.callSid
                  { session with businessId := resolveBusinessByTo req.toNumber env.resolve })
             else (req.queryBusinessId, session, st1)) with
      | (bid, session1, st2) =>
        -- if (!speech || speech.trim().length === 0): redirect back to voice
        if trimChars speech.toList = [] then
          (.ok [.redirect (gatherRedirectUrl bid)], st2)
        else
          match asTruthy bid with
          | none =>
            (.ok [.say noBusinessMsg, .hangup], st2)
          | some b =>
            -- session.businessId = businessId; push the user turn
            (.ok [.say thinkingMsg,
                  .redirect ("/twilio/process-agent?" ++
                    processAgentParams speech (req.fromNumber.getD "")
                      (req.toNumber.getD "") b req.callSid)],
              storeSet st2 req.callSid
                { session1 with
                  businessId := some b,
                  messages := session1.messages ++ [⟨"user", speech⟩] })

/-- Handler `POST /twilio/handle-gather` with its top-level try/catch. -/
def twilioHandleGather (req : GatherReq) (env : GatherEnv) (st : Store) :
    Response × Store :=
  match twilioHandleGatherBody req env st with
  | (.ok r, st') => (r, st')
  | (.error _, st') => (apologyTerminate, st')

structure ProcEnv where
  now : Nat
  resolve : ResolveOutcome
  agent : AgentOutcome
  inject : Bool
deriving DecidableEq, Repr

/-- Query parameters of `GET /twilio/process-agent`; each is read in the
source as `req.query.X || ""`, so they are plain strings with `""` for
absent. -/
structure ProcReq where
  speech : String
  fromNumber : String
  toNumber : String
  callSid : String
  businessId : String
deriving DecidableEq, Repr

/-- JS `array.slice(-n)`: the last `n` elements (all of them if shorter). -/
def takeLast (n : Nat) (l : List α) : List α :=
  l.drop (l.length - n)

/-- Default reply of `/twilio/process-agent` when no agent call happens. -/
def didNotCatchAgentMsg : String :=
  "I\x27m sorry, I didn\x27t quite catch that. Could you please repeat what you need?"

/-- Spoken rendering of the agent reply: `toPhoneSentence`, then the
handler splits into sentences again and keeps the first two, wrapped in
SSML `<speak>` tags. -/
def spokenReply (replyText : String) : String :=
  "<speak>" ++
    (joinSp ((splitSentences (toPhoneSentenceStr replyText).toList).take 2)).asString
    ++ "</speak>"

/-- Body of `GET /twilio/process-agent` (src/index.js 2578-2681).
The `recentMessages = session.messages.slice(-12)` window (`takeLast 12`)
is part of the agent request payload, whose outcome `env.agent` abstracts. -/
def twilioProcessAgentBody (req : ProcReq) (env : ProcEnv) (st : Store) :
    Except String Response × Store :=
  let (osession, st1) := getSession req.callSid env.now st
  match osession with
  | none =>
    -- session is null (falsy CallSid): reading `session.businessId` in the
    -- first resolution condition throws when the query businessId is falsy
    -- (src/index.js 2598); with a truthy businessId the only dereference is
    -- `session.messages.slice(-12)` inside the speech-guarded agent block
    -- (2626), so with blank speech the default reply is rendered and a
    -- normal gather+redirect answered (2606-2681).
    if req.businessId = "" then
      (.error "TypeError: cannot read businessId of null", st1)
    else if trimChars req.speech.toList ≠ [] then
      (.error "TypeError: cannot read messages of null", st1)
    else
      (.ok [.gatherSay ("/twilio/handle-gather?businessId=" ++ req.businessId)
              (spokenReply didNotCatchAgentMsg),
            .redirect ("/twilio/voice?businessId=" ++ req.businessId)], st1)
  | some session =>
    if env.inject then (.error "injected internal error", st1)
    else
      -- re-use passed businessId; fall back to session; else re-resolve from `to`
      match (if req.businessId = "" ∧ truthyS session.businessId then
               (session.businessId.getD "", session, st1)
             else if req.businessId = "" ∧ req.toNumber ≠ "" then
               ((resolveBusinessByTo (some req.toNumber) env.resolve).getD "",
                { session with businessId := resolveBusinessByTo (some req.toNumber) env.resolve },
                storeSet st1 req.callSid
                  { session with businessId := resolveBusinessByTo (some req.toNumber) env.resolve })
             else (req.businessId, session, st1)) with
      | (bid, session1, st2) =>
        if bid = "" then
          (.ok [.say noBusinessMsg, .hangup], st2)
        else
          -- if (speech && speech.trim().length > 0 && businessId): call the agent
          match (if trimChars req.speech.toList ≠ [] then
                   if (callAgentSafely env.agent).1 then
                     ((callAgentSafely env.agent).2,
                      storeSet st2 req.callSid
                        { session1 with
                          messages := session1.messages ++
                            [⟨"assistant", (callAgentSafely env.agent).2⟩] })
                   else ((callAgentSafely env.agent).2, st2)
                 else (didNotCatchAgentMsg, st2)) with
          | (replyText, st3) =>
            (.ok [.gatherSay ("/twilio/handle-gather?businessId=" ++ bid)
                    (spokenReply replyText),
                  .redirect ("/twilio/voice?businessId=" ++ bid)], st3)

/-- Handler `GET /twilio/process-agent` with its top-level try/catch. -/
def twilioProcessAgent (req : ProcReq) (env : ProcEnv) (st : Store) :
    Response × Store :=
  match twilioProcessAgentBody req env st with
  | (.ok r, st') => (r, st')
  | (.error _, st') => (apologyTerminate, st')

/-! ## Status callback (src/index.js 2993-3127) -/

structure StatusEnv where
  resolve : ResolveOutcome
  notifyFails : Bool     -- the /internal/calls/end fetch throws
  inject : Bool
deriving DecidableEq, Repr

structure StatusReq where
  callSid : String
  callStatus : String
  toNumber : Option String
deriving DecidableEq, Repr

/-- Terminal call statuses handled by the status callback. -/
def endStates : List String :=
  ["completed", "failed", "busy", "no-answer", "canceled"]

/-- Body of `POST /twilio/status-callback`: non-terminal statuses are merely
acknowledged; terminal ones map the status, resolve the business for the
notification payload, delete the session, then notify `/internal/calls/end`
inside its own try/catch (its failure is logged and ignored), and always
acknowledge with an empty `<Response></Response>`. -/
def statusCallbackBody (req : StatusReq) (env : StatusEnv) (st : Store) :
    Except String Response × Store :=
  if env.inject then (.error "injected internal error", st)
  else if req.callStatus ∉ endStates then (.ok [], st)
  else
    let _mappedStatus := if req.callStatus = "completed" then "completed" else "failed"
    let _businessId :=
      if truthyS req.toNumber then resolveBusinessByTo req.toNumber env.resolve
      else none
    -- if (CallSid && sessions.has(CallSid)) sessions.delete(CallSid)
    let st1 :=
      if req.callSid ≠ "" ∧ (storeFind st req.callSid).isSome then
        storeErase st req.callSid
      else st
    -- notify /internal/calls/end; a thrown fetch is caught and only logged
    let _notify : Except String Unit :=
      if env.notifyFails then .error "fetch failed" else .ok ()
    (.ok [], st1)

/-- Handler `POST /twilio/status-callback` with its top-level try/catch,
which also answers with the empty acknowledgment. -/
def statusCallback (req : StatusReq) (env : StatusEnv) (st : Store) :
    Response × Store :=
  match statusCallbackBody req env st with
  | (.ok r, st') => (r, st')
  | (.error _, st') => ([], st')

/-! ## Agent orchestration endpoint `/debug/agent-chat` (src/index.js 2701-2965)

The model-completion collaborator is a black box mapping a message history
to `choices[0]?.message` (possibly absent).  Tool executions are the two
recognized fetches; their outcome per tool call is supplied by the
environment (a thrown fetch or JSON parse propagates to the endpoint's
catch, which answers HTTP 500).  The system prompt built by
`getBusinessProfile`/`buildSystemPrompt` is deterministic in the profile and
is passed in as an opaque string, since no control flow inspects it. -/

/-- One model-issued tool call (`tc.function.name`, raw JSON arguments). -/
structure ToolCall where
  id : String
  name : String
  args : String
deriving DecidableEq, Repr

/-- One entry of a chat-completion message history. -/
structure ChatMsg where
  role : String
  content : String
  toolCallId : Option String
  toolCalls : List ToolCall
deriving DecidableEq, Repr

/-- An assistant message as returned by the model: text content plus any
requested tool calls. -/
structure ModelMsg where
  content : String
  toolCalls : List ToolCall
deriving DecidableEq, Repr

/-- The model-completion collaborator: history to `choices[0]?.message`. -/
abbrev Oracle := List ChatMsg → Option ModelMsg

/-- Outcome of one tool-execution fetch: response JSON text, or a throw. -/
abbrev ToolEnv := ToolCall → Except String String

/-- Outcome of `JSON.parse` on one tool call's (defaulted) raw `arguments`
string: the source parses every tool call's arguments before dispatching on
the tool name, and a parse throw propagates to the endpoint's catch. -/
abbrev ArgsParse := String → Except String Unit

def sysMsg (systemPrompt : String) : ChatMsg := ⟨"system", systemPrompt, none, []⟩

def userMsg (content : String) : ChatMsg := ⟨"user", content, none, []⟩

def assistantMsgOf (m : ModelMsg) : ChatMsg := ⟨"assistant", m.content, none, m.toolCalls⟩

/-- Execute a round of tool calls in order.  For every tool call — before
the name dispatch — the source runs
`JSON.parse(tc.function?.arguments || "\x7b\x7d")` (src/index.js 2773, 2860),
which may throw; then recognized tools (`check_availability`,
`book_appointment`) perform their fetch and push a `tool` message, while an
unrecognized name is skipped without output.  A thrown parse or fetch
aborts the round and propagates to the endpoint's catch. -/
def execToolCalls (parse : ArgsParse) (tenv : ToolEnv) :
    List ToolCall → Except String (List ChatMsg)
  | [] => .ok []
  | tc :: rest =>
    -- const args = JSON.parse(tc.function?.arguments || "\x7b\x7d")
    match parse (if tc.args = "" then "\x7b\x7d" else tc.args) with
    | .error e => .error e
    | .ok _ =>
      if tc.name = "check_availability" ∨ tc.name = "book_appointment" then
        match tenv tc with
        | .error e => .error e
        | .ok data =>
          match execToolCalls parse tenv rest with
          | .error e => .error e
          | .ok outs => .ok (⟨"tool", data, some tc.id, []⟩ :: outs)
      else execToolCalls parse tenv rest

/-- Request body of `POST /debug/agent-chat`. -/
structure AgentChatReq where
  message : Option String
  messages : Option (List ChatMsg)
  handle : Option String
  businessId : Option String
deriving Repr

/-- Observable outcome of `/debug/agent-chat`: HTTP status, the `ok` flag,
the reply (when any), and how many model calls / tool rounds were made. -/
structure AgentChatOut where
  status : Nat
  ok : Bool
  reply : Option String
  modelCalls : Nat
  toolRounds : Nat
deriving DecidableEq, Repr

/-- Conversation selection: a nonempty `messages` array wins, else a truthy
single `message` becomes a one-element user history, else the request is
rejected. -/
def agentConv : AgentChatReq → Option (List ChatMsg)
  | req =>
    match req.messages with
    | some ms =>
      if ms.length > 0 then some ms
      else
        match asTruthy req.message with
        | some m => some [userMsg m]
        | none => none
    | none =>
      match asTruthy req.message with
      | some m => some [userMsg m]
      | none => none

/-- Canned reply of the orchestrator when the model yields no usable text. -/
def noReplyFallback : String := "Sorry, I couldn\x27t generate a response."

/-- Endpoint `POST /debug/agent-chat`: validation, first model call, at most
two tool rounds (each tool call's arguments are JSON-parsed before the name
dispatch, and the second round's follow-up model call carries no tool
schema), canned fallback for empty final content; any throw — including an
arguments parse error — is converted to an HTTP 500 by the endpoint's
catch. -/
def agentChat (req : AgentChatReq) (systemPrompt : String)
    (oracle : Oracle) (parse : ArgsParse) (tenv : ToolEnv) : AgentChatOut :=
  match agentConv req with
  | none => ⟨400, false, none, 0, 0⟩
  | some conv =>
    if ¬ (truthyS req.handle ∨ truthyS req.businessId) then ⟨400, false, none, 0, 0⟩
    else
      -- 2) first call, tools enabled
      let hist1 := sysMsg systemPrompt :: conv
      match oracle hist1 with
      | none => ⟨500, false, none, 1, 0⟩   -- throw "No response from model"
      | some m1 =>
        if m1.toolCalls = [] then
          -- no tool calls: return what it said (no emptiness fallback here)
          ⟨200, true, some m1.content, 1, 0⟩
        else
          -- 3) execute tool calls
          match execToolCalls parse tenv m1.toolCalls with
          | .error _ => ⟨500, false, none, 1, 1⟩
          | .ok outs1 =>
            -- 4) second call (history rebuilt from the single `message` field)
            let hist2 := [sysMsg systemPrompt, userMsg (req.message.getD "")]
              ++ [assistantMsgOf m1] ++ outs1
            match oracle hist2 with
            | none => ⟨500, false, none, 2, 1⟩  -- secondMessage.tool_calls throws
            | some m2 =>
              if m2.toolCalls = [] then
                ⟨200, true,
                  some (match asTruthy (some m2.content) with
                        | some s => s
                        | none => noReplyFallback), 2, 1⟩
              else
                match execToolCalls parse tenv m2.toolCalls with
                | .error _ => ⟨500, false, none, 2, 2⟩
                | .ok outs2 =>
                  -- third call: no tool schema passed
                  let hist3 := hist2 ++ [assistantMsgOf m2] ++ outs2
                  let finalText :=
                    match oracle hist3 with
                    | some m3 => if m3.content = "" then noReplyFallback else m3.content
                    | none => noReplyFallback
                  ⟨200, true, some finalText, 3, 2⟩

/-- A caller-facing response is well formed when it either prompts for the
next utterance (gather/redirect) or terminates the call (hangup) — never a
dangling speak-only or empty document on the conversational endpoints. -/
def respOk (r : Response) : Bool :=
  r.any fun v =>
    match v with
    | .hangup => true
    | .gatherSay _ _ => true
    | .redirect _ => true
    | .say _ => false

/-- Failure outcomes of the resolver's external request: thrown fetch,
non-OK HTTP status, unparsable JSON, or a response without a truthy
`businessId` (genuine not-found). -/
def resolveFailed : ResolveOutcome → Bool
  | .ok b => !truthyS b
  | _ => true

/-- Boundary contribution of appending one character after a list: 1 when
the list ends in a sentence terminator and the new character is whitespace. -/
def sentLastPair (l : List Char) (c : Char) : Nat :=
  match l.getLast? with
  | some a => if isTermC a && isWsC c then 1 else 0
  | none => 0

/-! # Theorems -/

theorem storeFind_set_self (st : Store) (k : String) (v : Session) :
    storeFind (storeSet st k v) k = some v := by
  induction st with
  | nil => simp [storeSet, storeFind]
  | cons p t ih =>
    by_cases h : p.1 = k
    · simp [storeSet, storeFind, h]
    · simp [storeSet, storeFind, h, ih]

theorem storeFind_erase_self (st : Store) (k : String) :
    storeFind (storeErase st k) k = none := by
  induction st with
  | nil => simp [storeErase, storeFind]
  | cons p t ih =>
    by_cases h : p.1 = k
    · simpa [storeErase, storeFind, h] using ih
    · simpa [storeErase, storeFind, h] using ih

theorem storeErase_of_find_none (st : Store) (k : String)
    (h : storeFind st k = none) : storeErase st k = st := by
  induction st with
  | nil => rfl
  | cons p t ih =>
    obtain ⟨k', v⟩ := p
    by_cases hp : k' = k
    · simp [storeFind, hp] at h
    · simp only [storeFind, hp, if_false] at h
      have hstep : storeErase ((k', v) :: t) k = (k', v) :: storeErase t k := by
        simp [storeErase, List.filter_cons, hp]
      rw [hstep, ih h]

theorem callsFind_set_self (st : CallsStore) (k : String) (v : CallSession) :
    callsFind (callsSet st k v) k = some v := by
  induction st with
  | nil => simp [callsSet, callsFind]
  | cons p t ih =>
    by_cases h : p.1 = k
    · simp [callsSet, callsFind, h]
    · simp [callsSet, callsFind, h, ih]

/-- Claim C8: for every call identifier, calling get-or-create twice in
immediate succession returns the identical session (second result equal to
the first except for the refreshed `lastActive`), the second call observes a
`lastActiveAt` greater than or equal to the first, a fresh session is
initialized only when none exists, and an existing session is returned with
its `lastActive` refreshed. -/
theorem c8_get_or_create_stable (cid : String) (t1 t2 : Nat) (st : Store)
    (hcid : cid ≠ "") (ht : t1 ≤ t2) :
    ∃ s1 s2 st1 st2,
      getSession cid t1 st = (some s1, st1) ∧
      getSession cid t2 st1 = (some s2, st2) ∧
      s2.messages = s1.messages ∧ s2.businessId = s1.businessId ∧
      s1.lastActive = t1 ∧ s2.lastActive = t2 ∧
      s1.lastActive ≤ s2.lastActive ∧
      storeFind st2 cid = some s2 ∧
      (storeFind st cid = none → s1 = ⟨[], t1, none⟩) ∧
      (∀ s0, storeFind st cid = some s0 → s1 = { s0 with lastActive := t1 }) := by
  cases hfind : storeFind st cid with
  | none =>
    refine ⟨⟨[], t1, none⟩, ⟨[], t2, none⟩,
      storeSet st cid ⟨[], t1, none⟩,
      storeSet (storeSet st cid ⟨[], t1, none⟩) cid ⟨[], t2, none⟩,
      ?_, ?_, rfl, rfl, rfl, rfl, ht, ?_, ?_, ?_⟩
    · simp [getSession, hcid, hfind]
    · simp [getSession, hcid, storeFind_set_self]
    · exact storeFind_set_self _ _ _
    · intro _; rfl
    · intro s0 h; exact Option.noConfusion h
  | some s0 =>
    refine ⟨{ s0 with lastActive := t1 }, { s0 with lastActive := t2 },
      storeSet st cid { s0 with lastActive := t1 },
      storeSet (storeSet st cid { s0 with lastActive := t1 }) cid
        { s0 with lastActive := t2 },
      ?_, ?_, rfl, rfl, rfl, rfl, ht, ?_, ?_, ?_⟩
    · simp [getSession, hcid, hfind]
    · simp [getSession, hcid, storeFind_set_self]
    · exact storeFind_set_self _ _ _
    · intro h; exact Option.noConfusion h
    · intro sb h; injection h with h'; subst h'; rfl

/-- Witness for C8 at a concrete store. -/
theorem c8_get_or_create_stable_witness :
    ∃ s1 s2 st1 st2,
      getSession "CA1" 4 [("CA1", ⟨[⟨"user", "hi"⟩], 1, some "A"⟩)] = (some s1, st1) ∧
      getSession "CA1" 7 st1 = (some s2, st2) ∧
      s2.messages = s1.messages ∧ s2.businessId = s1.businessId ∧
      s1.lastActive = 4 ∧ s2.lastActive = 7 ∧
      s1.lastActive ≤ s2.lastActive ∧
      storeFind st2 "CA1" = some s2 ∧
      (storeFind [("CA1", ⟨[⟨"user", "hi"⟩], 1, some "A"⟩)] "CA1" = none → s1 = ⟨[], 4, none⟩) ∧
      (∀ s0, storeFind [("CA1", ⟨[⟨"user", "hi"⟩], 1, some "A"⟩)] "CA1" = some s0 →
        s1 = { s0 with lastActive := 4 }) :=
  c8_get_or_create_stable "CA1" 4 7 [("CA1", ⟨[⟨"user", "hi"⟩], 1, some "A"⟩)]
    (by decide) (by decide)

/-- Claim C9: a terminal call status deletes the session, answers with the
empty acknowledgment regardless of whether the downstream call-end
notification fails, and a subsequent get-or-create builds a brand-new
session with no prior history. -/
theorem c9_terminal_status_cleanup (req : StatusReq) (env : StatusEnv) (st : Store)
    (hterm : req.callStatus ∈ endStates) (hcid : req.callSid ≠ "")
    (hinj : env.inject = false) :
    statusCallback req env st = ([], storeErase st req.callSid) ∧
    ∀ t, (getSession req.callSid t (storeErase st req.callSid)).1 =
      some ⟨[], t, none⟩ := by
  constructor
  · unfold statusCallback statusCallbackBody
    simp only [hinj, Bool.false_eq_true, if_false, hterm, not_true_eq_false]
    by_cases hs : (storeFind st req.callSid).isSome
    · simp [hcid, hs]
    · have hnone : storeFind st req.callSid = none := by
        cases h : storeFind st req.callSid with
        | none => rfl
        | some s => rw [h] at hs; simp at hs
      simp [hcid, hs, storeErase_of_find_none st req.callSid hnone]
  · intro t
    simp [getSession, hcid, storeFind_erase_self]

/-- Witness for C9: terminal status `completed`, failing notification. -/
theorem c9_terminal_status_cleanup_witness :
    statusCallback ⟨"CA1", "completed", some "+16477882883"⟩
        ⟨.netError, true, false⟩ [("CA1", ⟨[⟨"user", "hi"⟩], 5, some "A"⟩)] =
      ([], storeErase [("CA1", ⟨[⟨"user", "hi"⟩], 5, some "A"⟩)] "CA1") ∧
    ∀ t, (getSession "CA1" t
        (storeErase [("CA1", ⟨[⟨"user", "hi"⟩], 5, some "A"⟩)] "CA1")).1 =
      some ⟨[], t, none⟩ :=
  c9_terminal_status_cleanup ⟨"CA1", "completed", some "+16477882883"⟩
    ⟨.netError, true, false⟩ [("CA1", ⟨[⟨"user", "hi"⟩], 5, some "A"⟩)]
    (by decide) (by decide) rfl

/-- Claim C10: for a falsy call identifier the store's get-or-create
returns `null` and creates no entry (so the `get-or-create -> Session`
contract fails at the empty identifier), and every handler path that then
dereferences the returned null session throws a `TypeError` absorbed by the
top-level catch into the generic apology-and-terminate response:
`/twilio/voice` always dereferences; `/twilio/handle-gather` and
`/twilio/process-agent` dereference whenever the businessId parameter is
falsy, or the (trimmed) speech is non-blank. -/
theorem c10_falsy_call_identifier :
    (∀ (t : Nat) (st : Store), getSession "" t st = (none, st)) ∧
    (∀ (req : VoiceReq) (env : VoiceEnv) (st : Store), req.callSid = "" →
      twilioVoice req env st = (apologyTerminate, st)) ∧
    (∀ (req : GatherReq) (env : GatherEnv) (st : Store), req.callSid = "" →
      (truthyS req.queryBusinessId = false ∨
        trimChars ((orFalsy (orFalsy req.speechResult req.transcriptionText)
          req.bodyText).getD "").toList ≠ []) →
      twilioHandleGather req env st = (apologyTerminate, st)) ∧
    (∀ (req : ProcReq) (env : ProcEnv) (st : Store), req.callSid = "" →
      (req.businessId = "" ∨ trimChars req.speech.toList ≠ []) →
      twilioProcessAgent req env st = (apologyTerminate, st)) := by
  refine ⟨fun t st => by simp [getSession], ?_, ?_, ?_⟩
  · intro req env st h
    simp [twilioVoice, twilioVoiceBody, getSession, h]
  · intro req env st h hderef
    by_cases hq : truthyS req.queryBusinessId = false
    · simp [twilioHandleGather, twilioHandleGatherBody, getSession, h, hq]
    · rcases hderef with hderef | hderef
      · exact absurd hderef hq
      · replace hderef : trimChars ((orFalsy (orFalsy req.speechResult
            req.transcriptionText) req.bodyText).getD "").data ≠ [] := hderef
        simp only [Bool.not_eq_false] at hq
        simp [twilioHandleGather, twilioHandleGatherBody, getSession, h, hq,
          hderef]
  · intro req env st h hderef
    by_cases hq : req.businessId = ""
    · simp [twilioProcessAgent, twilioProcessAgentBody, getSession, h, hq]
    · rcases hderef with hderef | hderef
      · exact absurd hderef hq
      · replace hderef : trimChars req.speech.data ≠ [] := hderef
        simp [twilioProcessAgent, twilioProcessAgentBody, getSession, h, hq,
          hderef]

/-- Witness for C10 on concrete requests with an empty CallSid. -/
theorem c10_falsy_call_identifier_witness :
    getSession "" 3 [] = (none, []) ∧
    twilioVoice ⟨some "+16477882883", some "+15550001111", "", none⟩
      ⟨1, .ok (some "A"), false, false⟩ [] = (apologyTerminate, []) ∧
    twilioHandleGather ⟨some "hi", none, none, none, none, "", none⟩
      ⟨1, .netError, false⟩ [] = (apologyTerminate, []) ∧
    twilioProcessAgent ⟨"hi", "", "", "", "b1"⟩ ⟨1, .netError, .ok none, false⟩ [] =
      (apologyTerminate, []) :=
  ⟨c10_falsy_call_identifier.1 3 [],
   c10_falsy_call_identifier.2.1 _ _ [] rfl,
   c10_falsy_call_identifier.2.2.1 _ _ [] rfl (Or.inl rfl),
   c10_falsy_call_identifier.2.2.2 _ _ [] rfl (Or.inr (by decide))⟩

/-- Claim C4, counterexample: in the final iteration's store, after one
caller turn through `/twilio/handle-gather` the session's messages hold no
`system` entry at all (the claimed count of exactly one fails). -/
theorem c4_counterexample :
    (storeFind (twilioHandleGather
        ⟨some "hi", none, none, some "+15550001111", some "+16477882883",
          "CA1", some "biz1"⟩
        ⟨3, .ok none, false⟩ []).2 "CA1").map
      (fun s => s.messages.countP (fun m => m.role == "system")) = some 0 ∧
    some (0 : Nat) ≠ some 1 := by
  exact ⟨rfl, by decide⟩

/-- Claim C4, amended: the final iteration's `getSession` creates sessions
with an empty messages list and never seeds a system entry, while the
earlier iteration's `getCallSession` seeds exactly one system entry at
creation and re-fetching is idempotent; caller and assistant turns are
appended at the end of the list in arrival order. -/
theorem c4_amended_system_seeding :
    (∀ (cid : String) (t : Nat) (st : Store), cid ≠ "" → storeFind st cid = none →
      (getSession cid t st).1 = some ⟨[], t, none⟩) ∧
    (∀ (cid : String) (st : CallsStore), callsFind st cid = none →
      (getCallSession cid st).1.messages = [⟨"system", callSystemPrompt⟩]) ∧
    (∀ (cid : String) (st : CallsStore),
      getCallSession cid (getCallSession cid st).2 =
        ((getCallSession cid st).1, (getCallSession cid st).2)) ∧
    (∀ (req : GatherReq) (env : GatherEnv) (st : Store) (s : Session) (b : String),
      env.inject = false → storeFind st req.callSid = some s →
      req.queryBusinessId = some b → b ≠ "" → req.callSid ≠ "" →
      trimChars ((orFalsy (orFalsy req.speechResult req.transcriptionText)
        req.bodyText).getD "").toList ≠ [] →
      ∃ s', storeFind (twilioHandleGather req env st).2 req.callSid = some s' ∧
        s'.messages = s.messages ++
          [⟨"user", (orFalsy (orFalsy req.speechResult req.transcriptionText)
              req.bodyText).getD ""⟩]) ∧
    (∀ (req : ProcReq) (env : ProcEnv) (st : Store) (s : Session),
      env.inject = false → storeFind st req.callSid = some s →
      req.businessId ≠ "" → req.callSid ≠ "" →
      trimChars req.speech.toList ≠ [] →
      (callAgentSafely env.agent).1 = true →
      ∃ s', storeFind (twilioProcessAgent req env st).2 req.callSid = some s' ∧
        s'.messages = s.messages ++ [⟨"assistant", (callAgentSafely env.agent).2⟩]) := by
  refine ⟨?_, ?_, ?_, ?_, ?_⟩
  · intro cid t st hcid hfind
    simp [getSession, hcid, hfind]
  · intro cid st hfind
    simp [getCallSession, hfind]
  · intro cid st
    cases hfind : callsFind st cid with
    | some s => simp [getCallSession, hfind]
    | none => simp [getCallSession, hfind, callsFind_set_self]
  · intro req env st s b hinj hfind hq hb hcid hspeech
    refine ⟨{ { s with lastActive := env.now } with
        businessId := some b,
        messages := s.messages ++
          [⟨"user", (orFalsy (orFalsy req.speechResult req.transcriptionText)
              req.bodyText).getD ""⟩] }, ?_, rfl⟩
    simp only [twilioHandleGather, twilioHandleGatherBody, getSession, hcid,
      if_neg hcid, hfind, hq, hinj, Bool.false_eq_true, if_false, truthyS, hb,
      ne_eq, not_false_eq_true, not_true_eq_false, false_and, if_neg,
      asTruthy]
    simp only [if_neg hspeech]
    simp [storeFind_set_self, truthyS, hb, asTruthy]
  · intro req env st s hinj hfind hbid hcid hspeech hsucc
    replace hspeech : trimChars req.speech.data ≠ [] := hspeech
    refine ⟨{ { s with lastActive := env.now } with
        messages := s.messages ++
          [⟨"assistant", (callAgentSafely env.agent).2⟩] }, ?_, rfl⟩
    simp [twilioProcessAgent, twilioProcessAgentBody, getSession, hcid, hfind,
      hinj, hbid, hspeech, hsucc, storeFind_set_self]

/-- Witness for the amended C4 at concrete inputs. -/
theorem c4_amended_system_seeding_witness :
    (getSession "CA1" 3 []).1 = some ⟨[], 3, none⟩ ∧
    (getCallSession "CA1" []).1.messages = [⟨"system", callSystemPrompt⟩] ∧
    (∃ s', storeFind (twilioHandleGather
        ⟨some "hi", none, none, none, none, "CA1", some "biz1"⟩
        ⟨7, .netError, false⟩
        [("CA1", ⟨[], 1, none⟩)]).2 "CA1" = some s' ∧
      s'.messages = ([] : List SessMsg) ++ [⟨"user", "hi"⟩]) ∧
    (∃ s', storeFind (twilioProcessAgent
        ⟨"hi", "", "", "CA1", "biz1"⟩
        ⟨8, .netError, .ok (some "See you soon."), false⟩
        [("CA1", ⟨[⟨"user", "hi"⟩], 1, some "biz1"⟩)]).2 "CA1" = some s' ∧
      s'.messages = [⟨"user", "hi"⟩] ++
        [⟨"assistant", (callAgentSafely (.ok (some "See you soon."))).2⟩]) :=
  ⟨c4_amended_system_seeding.1 "CA1" 3 [] (by decide) rfl,
   c4_amended_system_seeding.2.1 "CA1" [] rfl,
   c4_amended_system_seeding.2.2.2.1
     ⟨some "hi", none, none, none, none, "CA1", some "biz1"⟩ ⟨7, .netError, false⟩
     [("CA1", ⟨[], 1, none⟩)] ⟨[], 1, none⟩ "biz1" rfl rfl rfl (by decide)
     (by decide) (by decide),
   c4_amended_system_seeding.2.2.2.2
     ⟨"hi", "", "", "CA1", "biz1"⟩ ⟨8, .netError, .ok (some "See you soon."), false⟩
     [("CA1", ⟨[⟨"user", "hi"⟩], 1, some "biz1"⟩)] ⟨[⟨"user", "hi"⟩], 1, some "biz1"⟩
     rfl rfl (by decide) (by decide) (by decide) rfl⟩

/-- Claim C5, counterexample: a later `/twilio/voice` webhook carrying a
different explicit `businessId` query parameter overwrites the session's
previously set non-null `businessId` within the same call. -/
theorem c5_counterexample :
    ((storeFind (twilioVoice ⟨some "+16477882883", some "+15550001111", "CA1", none⟩
        ⟨5, .ok (some "A"), false, false⟩ []).2 "CA1").map Session.businessId
      = some (some "A")) ∧
    ((storeFind (twilioVoice ⟨some "+16477882883", some "+15550001111", "CA1", some "B"⟩
        ⟨6, .ok (some "A"), false, false⟩
        (twilioVoice ⟨some "+16477882883", some "+15550001111", "CA1", none⟩
          ⟨5, .ok (some "A"), false, false⟩ []).2).2 "CA1").map Session.businessId
      = some (some "B")) ∧
    some (some "B") ≠ some (some "A") := by
  exact ⟨rfl, rfl, by decide⟩

/-- Claim C5, amended: once a session's `businessId` is set to a non-null
value, every subsequent webhook event that does not carry an explicit
`businessId` query parameter preserves it (the handlers re-use the cached
value and never re-resolve); only an explicit differing query parameter can
change it. -/
theorem c5_business_id_stable :
    (∀ (req : VoiceReq) (env : VoiceEnv) (st : Store) (s : Session) (b : String),
      storeFind st req.callSid = some s → s.businessId = some b → b ≠ "" →
      req.queryBusinessId = none →
      ∃ s', storeFind (twilioVoice req env st).2 req.callSid = some s' ∧
        s'.businessId = some b) ∧
    (∀ (req : GatherReq) (env : GatherEnv) (st : Store) (s : Session) (b : String),
      storeFind st req.callSid = some s → s.businessId = some b → b ≠ "" →
      req.queryBusinessId = none →
      ∃ s', storeFind (twilioHandleGather req env st).2 req.callSid = some s' ∧
        s'.businessId = some b) ∧
    (∀ (req : ProcReq) (env : ProcEnv) (st : Store) (s : Session) (b : String),
      storeFind st req.callSid = some s → s.businessId = some b → b ≠ "" →
      req.businessId = "" →
      ∃ s', storeFind (twilioProcessAgent req env st).2 req.callSid = some s' ∧
        s'.businessId = some b) := by
  refine ⟨?_, ?_, ?_⟩
  · intro req env st s b hfind hb hbne hq
    by_cases hcid : req.callSid = ""
    · rw [hcid] at hfind
      exact ⟨s, by simp [twilioVoice, twilioVoiceBody, getSession, hcid, hfind], hb⟩
    · by_cases hinj : env.inject
      · refine ⟨{ s with lastActive := env.now }, ?_, hb⟩
        simp [twilioVoice, twilioVoiceBody, getSession, hcid, hfind, hinj,
          storeFind_set_self]
      · refine ⟨{ { s with lastActive := env.now } with businessId := some b }, ?_, rfl⟩
        simp [twilioVoice, twilioVoiceBody, getSession, hcid, hfind, hinj, hq,
          orFalsy, truthyS, hb, hbne, asTruthy, storeFind_set_self]
  · intro req env st s b hfind hb hbne hq
    by_cases hcid : req.callSid = ""
    · rw [hcid] at hfind
      exact ⟨s, by simp [twilioHandleGather, twilioHandleGatherBody, getSession,
        hcid, hfind, hq, truthyS], hb⟩
    · by_cases hinj : env.inject
      · refine ⟨{ s with lastActive := env.now }, ?_, hb⟩
        simp [twilioHandleGather, twilioHandleGatherBody, getSession, hcid, hfind,
          hinj, storeFind_set_self]
      · by_cases hspeech : trimChars ((orFalsy (orFalsy req.speechResult
            req.transcriptionText) req.bodyText).getD "").data = []
        · refine ⟨{ s with lastActive := env.now }, ?_, hb⟩
          simp [twilioHandleGather, twilioHandleGatherBody, getSession, hcid,
            hfind, hinj, hq, truthyS, hb, hbne, hspeech, storeFind_set_self,
            asTruthy]
        · refine ⟨{ { s with lastActive := env.now } with
            businessId := some b,
            messages := s.messages ++
              [⟨"user", (orFalsy (orFalsy req.speechResult req.transcriptionText)
                  req.bodyText).getD ""⟩] }, ?_, rfl⟩
          simp [twilioHandleGather, twilioHandleGatherBody, getSession, hcid,
            hfind, hinj, hq, truthyS, hb, hbne, hspeech, storeFind_set_self,
            asTruthy]
  · intro req env st s b hfind hb hbne hq
    by_cases hcid : req.callSid = ""
    · rw [hcid] at hfind
      exact ⟨s, by simp [twilioProcessAgent, twilioProcessAgentBody, getSession,
        hcid, hfind, hq], hb⟩
    · by_cases hinj : env.inject
      · refine ⟨{ s with lastActive := env.now }, ?_, hb⟩
        simp [twilioProcessAgent, twilioProcessAgentBody, getSession, hcid, hfind,
          hinj, storeFind_set_self]
      · by_cases hspeech : trimChars req.speech.data = []
        · refine ⟨{ s with lastActive := env.now }, ?_, hb⟩
          simp [twilioProcessAgent, twilioProcessAgentBody, getSession, hcid,
            hfind, hinj, hq, truthyS, hb, hbne, hspeech, storeFind_set_self]
        · by_cases hsucc : (callAgentSafely env.agent).1
          · refine ⟨{ { s with lastActive := env.now } with
              messages := s.messages ++
                [⟨"assistant", (callAgentSafely env.agent).2⟩] }, ?_, hb⟩
            simp [twilioProcessAgent, twilioProcessAgentBody, getSession, hcid,
              hfind, hinj, hq, truthyS, hb, hbne, hspeech, hsucc,
              storeFind_set_self]
          · refine ⟨{ s with lastActive := env.now }, ?_, hb⟩
            simp [twilioProcessAgent, twilioProcessAgentBody, getSession, hcid,
              hfind, hinj, hq, truthyS, hb, hbne, hspeech, hsucc,
              storeFind_set_self]

/-- Witness for the amended C5 at concrete inputs. -/
theorem c5_business_id_stable_witness :
    (∃ s', storeFind (twilioVoice ⟨some "+16477882883", none, "CA1", none⟩
        ⟨9, .netError, false, false⟩
        [("CA1", ⟨[], 1, some "A"⟩)]).2 "CA1" = some s' ∧
      s'.businessId = some "A") ∧
    (∃ s', storeFind (twilioHandleGather ⟨some "hi", none, none, none, none, "CA1", none⟩
        ⟨9, .netError, false⟩
        [("CA1", ⟨[], 1, some "A"⟩)]).2 "CA1" = some s' ∧
      s'.businessId = some "A") ∧
    (∃ s', storeFind (twilioProcessAgent ⟨"hi", "", "", "CA1", ""⟩
        ⟨9, .netError, .httpError, false⟩
        [("CA1", ⟨[], 1, some "A"⟩)]).2 "CA1" = some s' ∧
      s'.businessId = some "A") :=
  ⟨c5_business_id_stable.1 ⟨some "+16477882883", none, "CA1", none⟩
     ⟨9, .netError, false, false⟩ [("CA1", ⟨[], 1, some "A"⟩)] ⟨[], 1, some "A"⟩
     "A" rfl rfl (by decide) rfl,
   c5_business_id_stable.2.1 ⟨some "hi", none, none, none, none, "CA1", none⟩
     ⟨9, .netError, false⟩ [("CA1", ⟨[], 1, some "A"⟩)] ⟨[], 1, some "A"⟩
     "A" rfl rfl (by decide) rfl,
   c5_business_id_stable.2.2 ⟨"hi", "", "", "CA1", ""⟩
     ⟨9, .netError, .httpError, false⟩ [("CA1", ⟨[], 1, some "A"⟩)] ⟨[], 1, some "A"⟩
     "A" rfl rfl (by decide) rfl⟩

/-- Claim C2: every inbound webhook event handled by the three
conversational handlers yields a well-formed caller-facing response (one
that prompts for the next utterance or terminates), and any exception in a
handler body — at whatever point it is raised — is converted by the
top-level catch into the generic apology-and-terminate response. -/
theorem c2_handlers_always_respond :
    (∀ (req : VoiceReq) (env : VoiceEnv) (st : Store),
      respOk (twilioVoice req env st).1 = true) ∧
    (∀ (req : GatherReq) (env : GatherEnv) (st : Store),
      respOk (twilioHandleGather req env st).1 = true) ∧
    (∀ (req : ProcReq) (env : ProcEnv) (st : Store),
      respOk (twilioProcessAgent req env st).1 = true) ∧
    (∀ (req : VoiceReq) (env : VoiceEnv) (st : Store) (e : String) (st' : Store),
      twilioVoiceBody req env st = (.error e, st') →
      twilioVoice req env st = (apologyTerminate, st')) ∧
    (∀ (req : GatherReq) (env : GatherEnv) (st : Store) (e : String) (st' : Store),
      twilioHandleGatherBody req env st = (.error e, st') →
      twilioHandleGather req env st = (apologyTerminate, st')) ∧
    (∀ (req : ProcReq) (env : ProcEnv) (st : Store) (e : String) (st' : Store),
      twilioProcessAgentBody req env st = (.error e, st') →
      twilioProcessAgent req env st = (apologyTerminate, st')) := by
  refine ⟨?_, ?_, ?_, ?_, ?_, ?_⟩
  · intro req env st
    unfold twilioVoice
    split
    · rename_i r st2 heq
      unfold twilioVoiceBody at heq
      simp only [] at heq
      repeat' split at heq
      all_goals (rw [Prod.mk.injEq] at heq; rcases heq with ⟨hr, hst⟩)
      all_goals (try exact Except.noConfusion hr)
      all_goals (injection hr with hr2; subst hr2; simp [respOk])
    · simp [respOk, apologyTerminate]
  · intro req env st
    unfold twilioHandleGather
    split
    · rename_i r st2 heq
      unfold twilioHandleGatherBody at heq
      simp only [] at heq
      repeat' split at heq
      all_goals (rw [Prod.mk.injEq] at heq; rcases heq with ⟨hr, hst⟩)
      all_goals (try exact Except.noConfusion hr)
      all_goals (injection hr with hr2; subst hr2; simp [respOk])
    · simp [respOk, apologyTerminate]
  · intro req env st
    unfold twilioProcessAgent
    split
    · rename_i r st2 heq
      unfold twilioProcessAgentBody at heq
      simp only [] at heq
      repeat' split at heq
      all_goals (rw [Prod.mk.injEq] at heq; rcases heq with ⟨hr, hst⟩)
      all_goals (try exact Except.noConfusion hr)
      all_goals (injection hr with hr2; subst hr2; simp [respOk])
    · simp [respOk, apologyTerminate]
  · intro req env st e st' h
    unfold twilioVoice
    rw [h]
  · intro req env st e st' h
    unfold twilioHandleGather
    rw [h]
  · intro req env st e st' h
    unfold twilioProcessAgent
    rw [h]

/-- Witness for C2: concrete requests, including one whose body throws via
the injected internal exception. -/
theorem c2_handlers_always_respond_witness :
    respOk (twilioVoice ⟨some "+16477882883", none, "CA1", none⟩
      ⟨1, .ok (some "A"), false, false⟩ []).1 = true ∧
    respOk (twilioHandleGather ⟨some "hi", none, none, none, none, "CA1", some "A"⟩
      ⟨1, .netError, false⟩ []).1 = true ∧
    respOk (twilioProcessAgent ⟨"hi", "", "", "CA1", "A"⟩
      ⟨1, .netError, .timeout, false⟩ []).1 = true ∧
    twilioVoice ⟨some "+16477882883", none, "CA1", none⟩
      ⟨1, .ok (some "A"), false, true⟩ [] =
      (apologyTerminate, [("CA1", ⟨[], 1, none⟩)]) :=
  ⟨c2_handlers_always_respond.1 _ _ _,
   c2_handlers_always_respond.2.1 _ _ _,
   c2_handlers_always_respond.2.2.1 _ _ _,
   c2_handlers_always_respond.2.2.2.1 ⟨some "+16477882883", none, "CA1", none⟩
     ⟨1, .ok (some "A"), false, true⟩ [] "injected internal error"
     [("CA1", ⟨[], 1, none⟩)] rfl⟩

theorem resolve_failed_none (toPhone : Option String) (out : ResolveOutcome)
    (h : resolveFailed out = true) : resolveBusinessByTo toPhone out = none := by
  cases out with
  | ok b =>
    have hb : truthyS b = false := by simpa [resolveFailed] using h
    simp [resolveBusinessByTo, asTruthy, hb]
  | netError => simp [resolveBusinessByTo]
  | httpError => simp [resolveBusinessByTo]
  | badJson => simp [resolveBusinessByTo]

/-- Claim C6: the Business Resolver never throws outward — an absent or
falsy dialed number, a thrown fetch, a non-OK HTTP status, unparsable JSON
and a not-found response all yield the "not found" value — and on a fresh
call the caller-facing effect of any resolver failure is one and the same
graceful termination message, identical across failure kinds. -/
theorem c6_resolver_downgrades_failures :
    (∀ (toPhone : Option String) (out : ResolveOutcome), truthyS toPhone = false →
      resolveBusinessByTo toPhone out = none) ∧
    (∀ (toPhone : Option String) (out : ResolveOutcome), resolveFailed out = true →
      resolveBusinessByTo toPhone out = none) ∧
    (∀ (req : VoiceReq) (env1 env2 : VoiceEnv) (st : Store),
      storeFind st req.callSid = none → req.callSid ≠ "" →
      req.queryBusinessId = none →
      env1.inject = false → env2.inject = false → env1.now = env2.now →
      resolveFailed env1.resolve = true → resolveFailed env2.resolve = true →
      twilioVoice req env1 st = twilioVoice req env2 st ∧
      (twilioVoice req env1 st).1 = [.say notConfiguredMsg, .hangup]) := by
  refine ⟨?_, ?_, ?_⟩
  · intro toPhone out h
    simp [resolveBusinessByTo, h]
  · intro toPhone out h
    exact resolve_failed_none toPhone out h
  · intro req env1 env2 st hfind hcid hq hinj1 hinj2 hnow hf1 hf2
    have e1 : twilioVoice req env1 st =
        ([.say notConfiguredMsg, .hangup], storeSet st req.callSid ⟨[], env1.now, none⟩) := by
      simp [twilioVoice, twilioVoiceBody, getSession, hcid, hfind, hinj1, hq,
        orFalsy, truthyS, asTruthy, resolve_failed_none _ _ hf1]
    have e2 : twilioVoice req env2 st =
        ([.say notConfiguredMsg, .hangup], storeSet st req.callSid ⟨[], env2.now, none⟩) := by
      simp [twilioVoice, twilioVoiceBody, getSession, hcid, hfind, hinj2, hq,
        orFalsy, truthyS, asTruthy, resolve_failed_none _ _ hf2]
    rw [e1, e2, hnow]
    exact ⟨rfl, rfl⟩

/-- Witness for C6: a thrown resolver fetch and a not-found response give
the same terminal response on a fresh call. -/
theorem c6_resolver_downgrades_failures_witness :
    resolveBusinessByTo none .netError = none ∧
    resolveBusinessByTo (some "+16477882883") .httpError = none ∧
    (twilioVoice ⟨some "+16477882883", none, "CA1", none⟩ ⟨4, .netError, false, false⟩ [] =
      twilioVoice ⟨some "+16477882883", none, "CA1", none⟩ ⟨4, .ok none, false, false⟩ [] ∧
    (twilioVoice ⟨some "+16477882883", none, "CA1", none⟩ ⟨4, .netError, false, false⟩ []).1 =
      [.say notConfiguredMsg, .hangup]) :=
  ⟨c6_resolver_downgrades_failures.1 none .netError rfl,
   c6_resolver_downgrades_failures.2.1 (some "+16477882883") .httpError rfl,
   c6_resolver_downgrades_failures.2.2 ⟨some "+16477882883", none, "CA1", none⟩
     ⟨4, .netError, false, false⟩ ⟨4, .ok none, false, false⟩ [] rfl (by decide)
     rfl rfl rfl rfl rfl rfl⟩

theorem execToolCalls_ok (parse : ArgsParse) (tenv : ToolEnv)
    (hp : ∀ a, parse a = .ok ()) (h : ∀ tc, ∃ d, tenv tc = .ok d) :
    ∀ tcs, ∃ outs, execToolCalls parse tenv tcs = .ok outs := by
  intro tcs
  induction tcs with
  | nil => exact ⟨[], rfl⟩
  | cons tc rest ih =>
    obtain ⟨outs, ho⟩ := ih
    by_cases hn : tc.name = "check_availability" ∨ tc.name = "book_appointment"
    · obtain ⟨d, hd⟩ := h tc
      exact ⟨⟨"tool", d, some tc.id, []⟩ :: outs,
        by simp [execToolCalls, hp, hn, hd, ho]⟩
    · exact ⟨outs, by simp [execToolCalls, hp, hn, ho]⟩

/-- Claim C1, counterexample: with a model that requests tool calls on
every round (and empty content) and well-formed arguments, the
orchestrator stops after 3 model calls and replies with the canned
"Sorry, I couldn\x27t generate a response." — not a "let me look into
that" fallback. -/
theorem c1_counterexample :
    (agentChat ⟨some "book tomorrow", none, some "waismofit", none⟩ "sysprompt"
        (fun _ => some ⟨"", [⟨"t1", "check_availability", "argsjson"⟩]⟩)
        (fun _ => .ok ()) (fun _ => .ok "slots")) =
      ⟨200, true, some noReplyFallback, 3, 2⟩ ∧
    ¬ ("look into that".toList <:+: noReplyFallback.toList) := by
  exact ⟨rfl, by decide⟩

/-- Claim C1, amended: for every conversational turn the orchestrator
makes at most 3 model calls and at most 2 tool rounds; if the model
requests tool calls on every round, every tool call\x27s arguments parse,
and no tool execution throws, it terminates with exactly 3 model calls and
2 tool rounds and returns an HTTP 200 reply that is non-empty (the third
model call\x27s content, or the canned "Sorry, I couldn\x27t generate a
response." fallback), rather than looping forever or surfacing an internal
error; a tool call whose arguments fail JSON parsing instead surfaces as
the endpoint\x27s HTTP 500 catch response. -/
theorem c1_bounded_rounds_and_fallback :
    ∀ (req : AgentChatReq) (sp : String) (oracle : Oracle) (parse : ArgsParse)
      (tenv : ToolEnv),
      (agentChat req sp oracle parse tenv).modelCalls ≤ 3 ∧
      (agentChat req sp oracle parse tenv).toolRounds ≤ 2 ∧
      ((∀ h, ∃ m, oracle h = some m ∧ m.toolCalls ≠ []) →
       (∀ a, parse a = .ok ()) →
       (∀ tc, ∃ d, tenv tc = .ok d) →
       ∀ conv, agentConv req = some conv →
       (truthyS req.handle ∨ truthyS req.businessId) →
       (agentChat req sp oracle parse tenv).status = 200 ∧
       (agentChat req sp oracle parse tenv).ok = true ∧
       (agentChat req sp oracle parse tenv).modelCalls = 3 ∧
       (agentChat req sp oracle parse tenv).toolRounds = 2 ∧
       ∃ r, (agentChat req sp oracle parse tenv).reply = some r ∧ r ≠ "") ∧
      (∀ (conv : List ChatMsg) (m1 : ModelMsg) (tc : ToolCall)
        (tcs : List ToolCall) (e : String),
       agentConv req = some conv →
       (truthyS req.handle ∨ truthyS req.businessId) →
       oracle (sysMsg sp :: conv) = some m1 →
       m1.toolCalls = tc :: tcs →
       parse (if tc.args = "" then "\x7b\x7d" else tc.args) = .error e →
       (agentChat req sp oracle parse tenv).status = 500 ∧
       (agentChat req sp oracle parse tenv).ok = false) := by
  intro req sp oracle parse tenv
  refine ⟨?_, ?_, ?_, ?_⟩
  · unfold agentChat
    simp only []
    repeat' split
    all_goals simp
  · unfold agentChat
    simp only []
    repeat' split
    all_goals simp
  · intro hOracle hParse hTool conv hconv hHandle
    obtain ⟨m1, hm1, hm1t⟩ := hOracle (sysMsg sp :: conv)
    obtain ⟨outs1, ho1⟩ := execToolCalls_ok parse tenv hParse hTool m1.toolCalls
    obtain ⟨m2, hm2, hm2t⟩ := hOracle
      ([sysMsg sp, userMsg (req.message.getD "")] ++ [assistantMsgOf m1] ++ outs1)
    obtain ⟨outs2, ho2⟩ := execToolCalls_ok parse tenv hParse hTool m2.toolCalls
    have hH : ¬ ¬ (truthyS req.handle ∨ truthyS req.businessId) := not_not_intro hHandle
    have hres : agentChat req sp oracle parse tenv =
        ⟨200, true,
          some (match oracle (([sysMsg sp, userMsg (req.message.getD "")] ++
              [assistantMsgOf m1] ++ outs1) ++ [assistantMsgOf m2] ++ outs2) with
            | some m3 => if m3.content = "" then noReplyFallback else m3.content
            | none => noReplyFallback), 3, 2⟩ := by
      unfold agentChat
      simp only [hconv, if_neg hH, hm1, if_neg hm1t, ho1, hm2, if_neg hm2t, ho2]
    rw [hres]
    refine ⟨rfl, rfl, rfl, rfl, ?_⟩
    cases hm3 : oracle (([sysMsg sp, userMsg (req.message.getD "")] ++
        [assistantMsgOf m1] ++ outs1) ++ [assistantMsgOf m2] ++ outs2) with
    | none => exact ⟨noReplyFallback, by simp [hm3], by decide⟩
    | some m3 =>
      by_cases hc : m3.content = ""
      · exact ⟨noReplyFallback, by simp [hm3, hc], by decide⟩
      · exact ⟨m3.content, by simp [hm3, hc], hc⟩
  · intro conv m1 tc tcs e hconv hHandle hm1 htc hperr
    have hH : ¬ ¬ (truthyS req.handle ∨ truthyS req.businessId) := not_not_intro hHandle
    have hm1t : ¬ m1.toolCalls = [] := by rw [htc]; simp
    have hexec : execToolCalls parse tenv m1.toolCalls = .error e := by
      rw [htc]
      simp [execToolCalls, hperr]
    have hres : agentChat req sp oracle parse tenv = ⟨500, false, none, 1, 1⟩ := by
      unfold agentChat
      simp only [hconv, if_neg hH, hm1, if_neg hm1t, hexec]
    rw [hres]
    exact ⟨rfl, rfl⟩

/-- Witness for the amended C1: a model stub that always requests a tool
call, with parsing arguments and succeeding tool executions; and the same
turn under a throwing argument parse, which answers HTTP 500. -/
theorem c1_bounded_rounds_and_fallback_witness :
    (agentChat ⟨some "book tomorrow", none, some "waismofit", none⟩ "sysprompt"
        (fun _ => some ⟨"Checking now.", [⟨"t1", "check_availability", "argsjson"⟩]⟩)
        (fun _ => .ok ()) (fun _ => .ok "slots")).modelCalls ≤ 3 ∧
    (agentChat ⟨some "book tomorrow", none, some "waismofit", none⟩ "sysprompt"
        (fun _ => some ⟨"Checking now.", [⟨"t1", "check_availability", "argsjson"⟩]⟩)
        (fun _ => .ok ()) (fun _ => .ok "slots")).status = 200 ∧
    (∃ r, (agentChat ⟨some "book tomorrow", none, some "waismofit", none⟩ "sysprompt"
        (fun _ => some ⟨"Checking now.", [⟨"t1", "check_availability", "argsjson"⟩]⟩)
        (fun _ => .ok ()) (fun _ => .ok "slots")).reply = some r ∧ r ≠ "") ∧
    (agentChat ⟨some "book tomorrow", none, some "waismofit", none⟩ "sysprompt"
        (fun _ => some ⟨"Checking now.", [⟨"t1", "check_availability", "argsjson"⟩]⟩)
        (fun _ => .error "SyntaxError") (fun _ => .ok "slots")).status = 500 := by
  have h := c1_bounded_rounds_and_fallback
    ⟨some "book tomorrow", none, some "waismofit", none⟩ "sysprompt"
    (fun _ => some ⟨"Checking now.", [⟨"t1", "check_availability", "argsjson"⟩]⟩)
    (fun _ => .ok ()) (fun _ => .ok "slots")
  have h3 := h.2.2.1 (fun _ => ⟨_, rfl, by decide⟩) (fun _ => rfl)
    (fun _ => ⟨"slots", rfl⟩) [userMsg "book tomorrow"] rfl (by left; decide)
  have hbad := (c1_bounded_rounds_and_fallback
    ⟨some "book tomorrow", none, some "waismofit", none⟩ "sysprompt"
    (fun _ => some ⟨"Checking now.", [⟨"t1", "check_availability", "argsjson"⟩]⟩)
    (fun _ => .error "SyntaxError") (fun _ => .ok "slots")).2.2.2
    [userMsg "book tomorrow"] ⟨"Checking now.", [⟨"t1", "check_availability", "argsjson"⟩]⟩
    ⟨"t1", "check_availability", "argsjson"⟩ [] "SyntaxError"
    rfl (by left; decide) rfl rfl rfl
  exact ⟨h.1, h3.1, h3.2.2.2.2, hbad.1⟩

/-- Claim C3, counterexample: when the first model response carries no
tool calls and empty content, the returned reply is the empty string — the
canned-apology fallback is not applied on this branch. -/
theorem c3_counterexample :
    (agentChat ⟨some "hi", none, some "waismofit", none⟩ "sysprompt"
        (fun _ => some ⟨"", []⟩) (fun _ => .ok ()) (fun _ => .ok "d")) =
      ⟨200, true, some "", 1, 0⟩ ∧
    some "" ≠ some noReplyFallback := by
  exact ⟨rfl, by decide⟩

/-- Claim C3, amended: whenever a completed turn went through at least one
tool round, the final reply is non-empty (the canned apology replaces empty
model content); but on the branch where the first model response carries no
tool-call requests, the model\x27s content is returned verbatim and may be
empty. -/
theorem c3_reply_nonempty_after_tools :
    ∀ (req : AgentChatReq) (sp : String) (oracle : Oracle) (parse : ArgsParse)
      (tenv : ToolEnv) (conv : List ChatMsg),
      agentConv req = some conv →
      (truthyS req.handle ∨ truthyS req.businessId) →
      (1 ≤ (agentChat req sp oracle parse tenv).toolRounds →
        (agentChat req sp oracle parse tenv).status = 200 →
        ∃ r, (agentChat req sp oracle parse tenv).reply = some r ∧ r ≠ "") ∧
      (∀ m, oracle (sysMsg sp :: conv) = some m → m.toolCalls = [] →
        (agentChat req sp oracle parse tenv).reply = some m.content) := by
  intro req sp oracle parse tenv conv hconv hHandle
  have hH : ¬ ¬ (truthyS req.handle ∨ truthyS req.businessId) := not_not_intro hHandle
  constructor
  · intro hrounds hstatus
    cases hm1 : oracle (sysMsg sp :: conv) with
    | none =>
      have hres : agentChat req sp oracle parse tenv = ⟨500, false, none, 1, 0⟩ := by
        unfold agentChat; simp only [hconv, if_neg hH, hm1]
      rw [hres] at hrounds; simp at hrounds
    | some m1 =>
      by_cases hm1t : m1.toolCalls = []
      · have hres : agentChat req sp oracle parse tenv =
            ⟨200, true, some m1.content, 1, 0⟩ := by
          unfold agentChat; simp only [hconv, if_neg hH, hm1, if_pos hm1t]
        rw [hres] at hrounds; simp at hrounds
      · cases ho1 : execToolCalls parse tenv m1.toolCalls with
        | error e =>
          have hres : agentChat req sp oracle parse tenv = ⟨500, false, none, 1, 1⟩ := by
            unfold agentChat; simp only [hconv, if_neg hH, hm1, if_neg hm1t, ho1]
          rw [hres] at hstatus; simp at hstatus
        | ok outs1 =>
          cases hm2 : oracle ([sysMsg sp, userMsg (req.message.getD "")] ++
              [assistantMsgOf m1] ++ outs1) with
          | none =>
            have hres : agentChat req sp oracle parse tenv = ⟨500, false, none, 2, 1⟩ := by
              unfold agentChat
              simp only [hconv, if_neg hH, hm1, if_neg hm1t, ho1, hm2]
            rw [hres] at hstatus; simp at hstatus
          | some m2 =>
            by_cases hm2t : m2.toolCalls = []
            · have hres : agentChat req sp oracle parse tenv =
                  ⟨200, true, some (match asTruthy (some m2.content) with
                    | some s => s
                    | none => noReplyFallback), 2, 1⟩ := by
                unfold agentChat
                simp only [hconv, if_neg hH, hm1, if_neg hm1t, ho1, hm2, if_pos hm2t]
              rw [hres]
              by_cases hce : m2.content = ""
              · exact ⟨noReplyFallback, by simp [asTruthy, truthyS, hce], by decide⟩
              · exact ⟨m2.content, by simp [asTruthy, truthyS, hce], hce⟩
            · cases ho2 : execToolCalls parse tenv m2.toolCalls with
              | error e =>
                have hres : agentChat req sp oracle parse tenv =
                    ⟨500, false, none, 2, 2⟩ := by
                  unfold agentChat
                  simp only [hconv, if_neg hH, hm1, if_neg hm1t, ho1, hm2,
                    if_neg hm2t, ho2]
                rw [hres] at hstatus; simp at hstatus
              | ok outs2 =>
                have hres : agentChat req sp oracle parse tenv =
                    ⟨200, true,
                      some (match oracle (([sysMsg sp, userMsg (req.message.getD "")] ++
                          [assistantMsgOf m1] ++ outs1) ++ [assistantMsgOf m2] ++ outs2) with
                        | some m3 => if m3.content = "" then noReplyFallback else m3.content
                        | none => noReplyFallback), 3, 2⟩ := by
                  unfold agentChat
                  simp only [hconv, if_neg hH, hm1, if_neg hm1t, ho1, hm2,
                    if_neg hm2t, ho2]
                rw [hres]
                cases hm3 : oracle (([sysMsg sp, userMsg (req.message.getD "")] ++
                    [assistantMsgOf m1] ++ outs1) ++ [assistantMsgOf m2] ++ outs2) with
                | none => exact ⟨noReplyFallback, by simp [hm3], by decide⟩
                | some m3 =>
                  by_cases hc : m3.content = ""
                  · exact ⟨noReplyFallback, by simp [hm3, hc], by decide⟩
                  · exact ⟨m3.content, by simp [hm3, hc], hc⟩
  · intro m hm hmt
    unfold agentChat
    simp only [hconv, if_neg hH, hm, if_pos hmt]

/-- Witness for the amended C3. -/
theorem c3_reply_nonempty_after_tools_witness :
    (1 ≤ (agentChat ⟨some "hi", none, some "waismofit", none⟩ "sysprompt"
        (fun _ => some ⟨"", [⟨"t1", "book_appointment", "a"⟩]⟩)
        (fun _ => .ok ()) (fun _ => .ok "booked")).toolRounds →
      (agentChat ⟨some "hi", none, some "waismofit", none⟩ "sysprompt"
        (fun _ => some ⟨"", [⟨"t1", "book_appointment", "a"⟩]⟩)
        (fun _ => .ok ()) (fun _ => .ok "booked")).status = 200 →
      ∃ r, (agentChat ⟨some "hi", none, some "waismofit", none⟩ "sysprompt"
        (fun _ => some ⟨"", [⟨"t1", "book_appointment", "a"⟩]⟩)
        (fun _ => .ok ()) (fun _ => .ok "booked")).reply = some r ∧ r ≠ "") ∧
    (∀ m, (fun (_ : List ChatMsg) => some (⟨"", [⟨"t1", "book_appointment", "a"⟩]⟩ : ModelMsg))
        (sysMsg "sysprompt" :: [userMsg "hi"]) = some m → m.toolCalls = [] →
      (agentChat ⟨some "hi", none, some "waismofit", none⟩ "sysprompt"
        (fun _ => some ⟨"", [⟨"t1", "book_appointment", "a"⟩]⟩)
        (fun _ => .ok ()) (fun _ => .ok "booked")).reply = some m.content) :=
  c3_reply_nonempty_after_tools ⟨some "hi", none, some "waismofit", none⟩ "sysprompt"
    (fun _ => some ⟨"", [⟨"t1", "book_appointment", "a"⟩]⟩) (fun _ => .ok ())
    (fun _ => .ok "booked") [userMsg "hi"] rfl (by left; decide)

/-! ## Sentence-boundary accounting for the phone-sentence cleaner -/

theorem boundaries_tail_le (x : Char) (l : List Char) :
    boundaries l ≤ boundaries (x :: l) := by
  cases l with
  | nil => simp [boundaries]
  | cons y t => simp only [boundaries]; omega

theorem boundaries_cons_le (x : Char) (l : List Char) :
    boundaries (x :: l) ≤ 1 + boundaries l := by
  cases l with
  | nil => simp [boundaries]
  | cons y t =>
    simp only [boundaries]
    split <;> omega

theorem boundaries_suffix_le {l₁ l₂ : List Char} (h : l₁ <:+ l₂) :
    boundaries l₁ ≤ boundaries l₂ := by
  obtain ⟨pre, rfl⟩ := h
  induction pre with
  | nil => simp
  | cons x t ih => exact le_trans ih (boundaries_tail_le x (t ++ l₁))

theorem boundaries_take_le (l : List Char) : ∀ n, boundaries (l.take n) ≤ boundaries l := by
  induction l with
  | nil => intro n; simp
  | cons a t ih =>
    intro n
    cases n with
    | zero => simp [boundaries]
    | succ m =>
      cases t with
      | nil => simp [boundaries]
      | cons b t2 =>
        cases m with
        | zero =>
          have e : boundaries [a] = 0 := rfl
          simp only [List.take, e]
          exact Nat.zero_le _
        | succ k =>
          have e1 : (a :: b :: t2).take (k + 2) = a :: b :: t2.take k := rfl
          rw [e1]
          have e2 : boundaries (a :: b :: t2.take k) =
              (if (isTermC a && isWsC b) = true then 1 else 0) +
                boundaries (b :: t2.take k) := rfl
          have e3 : boundaries (a :: b :: t2) =
              (if (isTermC a && isWsC b) = true then 1 else 0) +
                boundaries (b :: t2) := rfl
          have h4 : boundaries (b :: t2.take k) ≤ boundaries (b :: t2) := by
            have h5 := ih (k + 1)
            have e4 : (b :: t2).take (k + 1) = b :: t2.take k := rfl
            rwa [e4] at h5
          rw [e2, e3]
          omega

theorem boundaries_prefix_le {l₁ l₂ : List Char} (h : l₁ <+: l₂) :
    boundaries l₁ ≤ boundaries l₂ := by
  rw [List.prefix_iff_eq_take.mp h]
  exact boundaries_take_le l₂ l₁.length

theorem boundaries_snoc (l : List Char) (c : Char) :
    boundaries (l ++ [c]) = boundaries l + sentLastPair l c := by
  induction l with
  | nil => simp [boundaries, sentLastPair]
  | cons a t ih =>
    cases t with
    | nil =>
      have e : boundaries [a, c] = (if (isTermC a && isWsC c) = true then 1 else 0) +
          boundaries [c] := rfl
      have e2 : boundaries [c] = 0 := rfl
      have e3 : boundaries [a] = 0 := rfl
      have e4 : sentLastPair [a] c = if (isTermC a && isWsC c) = true then 1 else 0 := by
        simp [sentLastPair]
      show boundaries [a, c] = boundaries [a] + sentLastPair [a] c
      rw [e, e2, e3, e4]
      omega
    | cons b t2 =>
      have hl : (a :: b :: t2) ++ [c] = a :: b :: (t2 ++ [c]) := by simp
      rw [hl]
      have e1 : boundaries (a :: b :: (t2 ++ [c])) =
          (if (isTermC a && isWsC b) = true then 1 else 0) +
            boundaries (b :: (t2 ++ [c])) := rfl
      have e2 : boundaries (a :: b :: t2) =
          (if (isTermC a && isWsC b) = true then 1 else 0) + boundaries (b :: t2) := rfl
      have h3 : boundaries (b :: (t2 ++ [c])) =
          boundaries (b :: t2) + sentLastPair (b :: t2) c := by
        have h := ih
        rwa [List.cons_append] at h
      have hlast : sentLastPair (a :: b :: t2) c = sentLastPair (b :: t2) c := by
        simp [sentLastPair, List.getLast?_cons_cons]
      rw [e1, e2, h3, hlast]
      omega

theorem boundaries_append_le (l₁ l₂ : List Char) :
    boundaries (l₁ ++ l₂) ≤ boundaries l₁ + boundaries l₂ + 1 := by
  induction l₁ with
  | nil => simp; omega
  | cons a t ih =>
    cases t with
    | nil =>
      have h1 := boundaries_cons_le a l₂
      have h2 : boundaries [a] = 0 := rfl
      have hl : [a] ++ l₂ = a :: l₂ := rfl
      rw [hl, h2]
      omega
    | cons b t2 =>
      have hl : (a :: b :: t2) ++ l₂ = a :: b :: (t2 ++ l₂) := by simp
      rw [hl]
      have e1 : boundaries (a :: b :: (t2 ++ l₂)) =
          (if (isTermC a && isWsC b) = true then 1 else 0) +
            boundaries (b :: (t2 ++ l₂)) := rfl
      have e2 : boundaries (a :: b :: t2) =
          (if (isTermC a && isWsC b) = true then 1 else 0) + boundaries (b :: t2) := rfl
      have h3 : boundaries (b :: (t2 ++ l₂)) ≤
          boundaries (b :: t2) + boundaries l₂ + 1 := by
        have h := ih
        rwa [List.cons_append] at h
      rw [e1, e2]
      omega

theorem boundaries_space_cons (l : List Char) :
    boundaries (' ' :: l) = boundaries l := by
  cases l with
  | nil => simp [boundaries]
  | cons y t =>
    have hterm : isTermC ' ' = false := by decide
    simp [boundaries, hterm]

/-- Every part produced by the sentence splitter is boundary-free, given a
boundary-free accumulator. -/
theorem splitSentAux_boundaries (l : List Char) :
    ∀ (acc : List Char) (sk : Bool), boundaries acc.reverse = 0 →
      ∀ p ∈ splitSentAux l acc sk, boundaries p = 0 := by
  induction l with
  | nil =>
    intro acc sk hacc p hp
    simp [splitSentAux] at hp
    rw [hp]; exact hacc
  | cons c rest ih =>
    intro acc sk hacc p hp
    rw [splitSentAux.eq_def] at hp
    simp only [] at hp
    by_cases hsk : sk = true
    · rw [if_pos hsk] at hp
      by_cases hws : isWsC c = true
      · rw [if_pos hws] at hp
        exact ih acc true hacc p hp
      · rw [if_neg hws] at hp
        exact ih [c] false (by simp [boundaries]) p hp
    · rw [if_neg hsk] at hp
      cases hAcc : acc with
      | nil =>
        rw [hAcc] at hp
        simp only [] at hp
        exact ih [c] false (by simp [boundaries]) p hp
      | cons a t =>
        rw [hAcc] at hp
        simp only [] at hp
        by_cases hcond : (isWsC c && isTermC a) = true
        · rw [if_pos hcond] at hp
          rcases List.mem_cons.mp hp with hp1 | hp2
          · rw [hp1, ← hAcc]; exact hacc
          · exact ih [] true (by simp [boundaries]) p hp2
        · rw [if_neg hcond] at hp
          refine ih (c :: a :: t) false ?_ p hp
          have hrev : (c :: a :: t).reverse = (a :: t).reverse ++ [c] := by
            simp
          rw [hrev, boundaries_snoc]
          have hacc2 : boundaries (a :: t).reverse = 0 := by rw [← hAcc]; exact hacc
      
          have hlast : (a :: t).reverse.getLast? = some a := by
            rw [List.reverse_cons, List.getLast?_concat]
          have hpair : (isTermC a && isWsC c) = false := by
            cases hta : isTermC a with
            | false => simp
            | true =>
              cases hwc : isWsC c with
              | false => simp
              | true => rw [hta, hwc] at hcond; simp at hcond
          rw [hacc2]
          simp only [sentLastPair, hlast, hpair]
          simp

/-- Every character of every part produced by the splitter comes from the
input or the accumulator. -/
theorem splitSentAux_mem (l : List Char) :
    ∀ (acc : List Char) (sk : Bool) (p : List Char) (c : Char),
      p ∈ splitSentAux l acc sk → c ∈ p → c ∈ l ∨ c ∈ acc := by
  induction l with
  | nil =>
    intro acc sk p c hp hc
    simp [splitSentAux] at hp
    rw [hp] at hc
    exact Or.inr (List.mem_reverse.mp hc)
  | cons c0 rest ih =>
    intro acc sk p c hp hc
    rw [splitSentAux.eq_def] at hp
    simp only [] at hp
    by_cases hsk : sk = true
    · rw [if_pos hsk] at hp
      by_cases hws : isWsC c0 = true
      · rw [if_pos hws] at hp
        rcases ih acc true p c hp hc with h | h
        · exact Or.inl (List.mem_cons_of_mem c0 h)
        · exact Or.inr h
      · rw [if_neg hws] at hp
        rcases ih [c0] false p c hp hc with h | h
        · exact Or.inl (List.mem_cons_of_mem c0 h)
        · simp at h
          exact Or.inl (by simp [h])
    · rw [if_neg hsk] at hp
      cases hAcc : acc with
      | nil =>
        rw [hAcc] at hp
        simp only [] at hp
        rcases ih [c0] false p c hp hc with h | h
        · exact Or.inl (List.mem_cons_of_mem c0 h)
        · simp at h
          exact Or.inl (by simp [h])
      | cons a t =>
        rw [hAcc] at hp
        simp only [] at hp
        by_cases hcond : (isWsC c0 && isTermC a) = true
        · rw [if_pos hcond] at hp
          rcases List.mem_cons.mp hp with hp1 | hp2
          · rw [hp1] at hc
            exact Or.inr (List.mem_reverse.mp hc)
          · rcases ih [] true p c hp2 hc with h | h
            · exact Or.inl (List.mem_cons_of_mem c0 h)
            · simp at h
        · rw [if_neg hcond] at hp
          rcases ih (c0 :: a :: t) false p c hp hc with h | h
          · exact Or.inl (List.mem_cons_of_mem c0 h)
          · rcases List.mem_cons.mp h with h2 | h2
            · exact Or.inl (by simp [h2])
            · exact Or.inr h2

theorem splitSentences_boundaries (l : List Char) :
    ∀ p ∈ splitSentences l, boundaries p = 0 :=
  splitSentAux_boundaries l [] false (by simp [boundaries])

theorem splitSentences_mem (l : List Char) (p : List Char) (c : Char)
    (hp : p ∈ splitSentences l) (hc : c ∈ p) : c ∈ l := by
  rcases splitSentAux_mem l [] false p c hp hc with h | h
  · exact h
  · simp at h

theorem joinSp_boundaries_le (ps : List (List Char))
    (h0 : ∀ p ∈ ps, boundaries p = 0) (hlen : ps.length ≤ 2) :
    boundaries (joinSp ps) ≤ 1 := by
  match ps with
  | [] => simp [joinSp, boundaries]
  | [p] =>
    rw [joinSp]
    rw [h0 p (by simp)]
    omega
  | [p, q] =>
    rw [joinSp, joinSp]
    have hp := h0 p (by simp)
    have hq := h0 q (by simp)
    have h1 : boundaries (' ' :: q) = 0 := by rw [boundaries_space_cons]; exact hq
    have h2 := boundaries_append_le p (' ' :: q)
    omega
  | p :: q :: r :: t => simp at hlen

theorem joinSp_mem (ps : List (List Char)) (c : Char) (hc : c ∈ joinSp ps) :
    c = ' ' ∨ ∃ p ∈ ps, c ∈ p := by
  match ps with
  | [] => simp [joinSp] at hc
  | [p] =>
    rw [joinSp] at hc
    exact Or.inr ⟨p, by simp, hc⟩
  | p :: q :: t =>
    rw [joinSp] at hc
    rcases List.mem_append.mp hc with h | h
    · exact Or.inr ⟨p, by simp, h⟩
    · rcases List.mem_cons.mp h with h2 | h2
      · exact Or.inl h2
      · rcases joinSp_mem (q :: t) c h2 with h3 | ⟨p2, hp2, hcp2⟩
        · exact Or.inl h3
        · exact Or.inr ⟨p2, List.mem_cons_of_mem p hp2, hcp2⟩

/-! Trim facts: `trimChars` produces a contiguous piece of its input. -/

theorem trimChars_prefix_of_dropWhile (l : List Char) :
    trimChars l <+: l.dropWhile isWsC := by
  unfold trimChars
  have h1 : ((l.dropWhile isWsC).reverse.dropWhile isWsC) <:+ (l.dropWhile isWsC).reverse :=
    List.dropWhile_suffix isWsC
  have h2 : ((l.dropWhile isWsC).reverse.dropWhile isWsC).reverse <+:
      ((l.dropWhile isWsC).reverse).reverse := List.reverse_prefix.mpr h1
  rwa [List.reverse_reverse] at h2

theorem boundaries_trimChars_le (l : List Char) :
    boundaries (trimChars l) ≤ boundaries l :=
  le_trans (boundaries_prefix_le (trimChars_prefix_of_dropWhile l))
    (boundaries_suffix_le (List.dropWhile_suffix isWsC))

theorem trimChars_length_le (l : List Char) : (trimChars l).length ≤ l.length :=
  le_trans (trimChars_prefix_of_dropWhile l).length_le
    (List.dropWhile_suffix isWsC).length_le

theorem trimChars_subset (l : List Char) (c : Char) (hc : c ∈ trimChars l) : c ∈ l :=
  (List.dropWhile_suffix isWsC).subset ((trimChars_prefix_of_dropWhile l).subset hc)

/-! Markup-character removal facts. -/

theorem removeMarkupChars_not_mem (x : List Char) (c : Char)
    (hc : (c == '_' || c == backtickChar) = true) : c ∉ removeMarkupChars x := by
  intro hmem
  have := (List.mem_filter.mp hmem).2
  rw [hc] at this
  simp at this

theorem mem_replaceDoubleNl (c : Char) (l : List Char) (h : c ∈ replaceDoubleNl l) :
    c ∈ l ∨ c = '.' ∨ c = ' ' := by
  induction l using replaceDoubleNl.induct with
  | case1 rest ih =>
    rw [replaceDoubleNl] at h
    rcases List.mem_cons.mp h with h1 | h1
    · exact Or.inr (Or.inl h1)
    · rcases List.mem_cons.mp h1 with h2 | h2
      · exact Or.inr (Or.inr h2)
      · rcases ih h2 with h3 | h3
        · exact Or.inl (by simp [h3])
        · exact Or.inr h3
  | case2 c0 rest hne ih =>
    rw [replaceDoubleNl] at h
    · rcases List.mem_cons.mp h with h1 | h1
      · exact Or.inl (by simp [h1])
      · rcases ih h1 with h2 | h2
        · exact Or.inl (List.mem_cons_of_mem c0 h2)
        · exact Or.inr h2
    · exact hne
  | case3 => simp [replaceDoubleNl] at h

theorem clean_no_markup (x : List Char) (c : Char)
    (hc : (c == '_' || c == backtickChar) = true) :
    c ∉ replaceNl (replaceDoubleNl (removeMarkupChars x)) := by
  have hcu : c = '_' ∨ c = backtickChar := by
    rcases Bool.or_eq_true_iff.mp hc with h | h
    · exact Or.inl (eq_of_beq h)
    · exact Or.inr (eq_of_beq h)
  have hcspace : c ≠ ' ' := by rcases hcu with rfl | rfl <;> decide
  have hcdot : c ≠ '.' := by rcases hcu with rfl | rfl <;> decide
  intro hmem
  obtain ⟨a, ha, hfa⟩ := List.mem_map.mp hmem
  have hac : a = c := by
    by_cases han : (a == '\n') = true
    · rw [if_pos han] at hfa
      exact absurd hfa.symm hcspace
    · rw [if_neg han] at hfa
      exact hfa
  rw [hac] at ha
  rcases mem_replaceDoubleNl c _ ha with h | h | h
  · exact removeMarkupChars_not_mem x c hc h
  · exact hcdot h
  · exact hcspace h

/-- Claim C7: for every reply rendered for spoken delivery,
`toPhoneSentence` returns at most 220 characters, keeps at most two
sentences (at most one internal terminator-then-whitespace boundary), and
strips the markup characters (no underscore or backtick survives). -/
theorem c7_phone_sentence_format (text : List Char) :
    (toPhoneSentence text).length ≤ 220 ∧
    boundaries (toPhoneSentence text) ≤ 1 ∧
    '_' ∉ toPhoneSentence text ∧
    backtickChar ∉ toPhoneSentence text := by
  by_cases htext : text = []
  · rw [toPhoneSentence, if_pos htext]
    refine ⟨by decide, by decide, by decide, by decide⟩
  · rw [toPhoneSentence, if_neg htext]
    simp only []
    set clean := replaceNl (replaceDoubleNl (removeMarkupChars (removeDoubleStar text)))
      with hclean
    set parts := splitSentences clean with hparts
    set clean2 := joinSp (parts.take 2) with hclean2
    set clean3 := (if clean2.length > 220 then clean2.take 220 else clean2) with hclean3
    have hP0 : ∀ p ∈ parts.take 2, boundaries p = 0 := by
      intro p hp
      exact splitSentences_boundaries clean p ((List.take_sublist 2 parts).subset hp)
    have hb2 : boundaries clean2 ≤ 1 := by
      rw [hclean2]
      refine joinSp_boundaries_le (parts.take 2) hP0 ?_
      rw [List.length_take]
      exact min_le_left _ _
    have hb3 : boundaries clean3 ≤ 1 := by
      rw [hclean3]
      by_cases hlen : clean2.length > 220
      · rw [if_pos hlen]
        exact le_trans (boundaries_take_le clean2 220) hb2
      · rw [if_neg hlen]; exact hb2
    have hl3 : clean3.length ≤ 220 := by
      rw [hclean3]
      by_cases hlen : clean2.length > 220
      · rw [if_pos hlen]
        rw [List.length_take]
        exact min_le_left _ _
      · rw [if_neg hlen]; omega
    have hmem3 : ∀ c, c ∈ clean3 → c ∈ clean2 := by
      intro c hcm
      rw [hclean3] at hcm
      by_cases hlen : clean2.length > 220
      · rw [if_pos hlen] at hcm
        exact (List.take_sublist 220 clean2).subset hcm
      · rw [if_neg hlen] at hcm; exact hcm
    have hnomk : ∀ c, (c == '_' || c == backtickChar) = true → c ∉ trimChars clean3 := by
      intro c hcmk hcmem
      have h2 : c ∈ clean2 := hmem3 c (trimChars_subset clean3 c hcmem)
      rcases joinSp_mem (parts.take 2) c h2 with hsp | ⟨p, hp, hcp⟩
      · rw [hsp] at hcmk
        exact absurd hcmk (by decide)
      · have hpin : p ∈ parts := (List.take_sublist 2 parts).subset hp
        have hcl : c ∈ clean := splitSentences_mem clean p c hpin hcp
        exact clean_no_markup (removeDoubleStar text) c hcmk hcl
    exact ⟨le_trans (trimChars_length_le clean3) hl3,
      le_trans (boundaries_trimChars_le clean3) hb3,
      hnomk '_' (by decide), hnomk backtickChar (by decide)⟩

/-- Witness-style corollary of C7 at a concrete markdown-laden reply. -/
theorem c7_phone_sentence_format_witness :
    (toPhoneSentence "**Hi**. I can _help_. Third sentence here.".toList).length ≤ 220 ∧
    boundaries (toPhoneSentence "**Hi**. I can _help_. Third sentence here.".toList) ≤ 1 ∧
    '_' ∉ toPhoneSentence "**Hi**. I can _help_. Third sentence here.".toList ∧
    backtickChar ∉ toPhoneSentence "**Hi**. I can _help_. Third sentence here.".toList :=
  c7_phone_sentence_format "**Hi**. I can _help_. Third sentence here.".toList

end VoiceGateway
